import Mathlib

/-!
# Verification of the actor VM (`src/main.rs`)

Shallow embedding of the actor virtual machine: the tagged `Value` model
with its hand-written `clone`, the register file, the mailbox, the
instruction set, and the fetch/decode/execute step (`tick`).

Conventions:
* Rust panics and `todo!()` are modelled by `Option`: `none` is a fatal
  error of the step, `some s` a completed step with next state `s`.
* `f64` payloads are carried as their 64-bit pattern (a `Nat`); the IEEE
  operations themselves are parameters of the step function (`FloatOps`),
  since no property proved here depends on float arithmetic.
* `i64` arithmetic wraps modulo 2^64 (two's complement); division and
  remainder mirror the Rust overflow/zero checks, which are fatal.
* `usize` is modelled as `Nat`; the `i as usize` cast of an `i64` index is
  its value modulo 2^64.
-/

/-- The tagged dynamic value (`enum Value`). `float` carries the raw 64-bit
pattern. `Map` is carried as an association list, standing in for the
`HashMap` (only emptiness/membership of maps matters to the properties
proved here). -/
inductive Value where
  | ref (r : Nat)
  | int (i : Int)
  | float (bits : Nat)
  | bool (b : Bool)
  | string (s : String)
  | atom (a : String)
  | list (l : List Value)
  | tuple (t : List Value)
  | map (m : List (Value × Value))

mutual

/-- The inherent `Value::clone` of the source (`Value` does not derive
`Clone`): scalars and `Ref` copy trivially, `List`/`Tuple` copy element by
element, and the `Map` arm builds a fresh **empty** map, exactly as the
source does. -/
def Value.clone : Value → Value
  | .ref r => .ref r
  | .int i => .int i
  | .float f => .float f
  | .bool b => .bool b
  | .string s => .string s
  | .atom a => .atom a
  | .list l => .list (Value.cloneList l)
  | .tuple t => .tuple (Value.cloneList t)
  | .map _ => .map []

/-- The element-wise copy loop `for item in l { new.push(item.clone()) }`. -/
def Value.cloneList : List Value → List Value
  | [] => []
  | x :: xs => x.clone :: Value.cloneList xs

end

/-- The register names (`enum Reg`), including the trailing `RegCount`
marker variant. -/
inductive Reg where
  | R0 | R1 | R2 | R3 | R4 | R5 | R6 | R7 | PC | ZF | LR | RegCount
deriving DecidableEq

/-- The value of `reg as usize`: the discriminant of the variant. -/
def Reg.toIdx : Reg → Nat
  | .R0 => 0
  | .R1 => 1
  | .R2 => 2
  | .R3 => 3
  | .R4 => 4
  | .R5 => 5
  | .R6 => 6
  | .R7 => 7
  | .PC => 8
  | .ZF => 9
  | .LR => 10
  | .RegCount => 11

/-- The instruction set (`enum Inst`). -/
inductive Inst where
  | int (reg : Reg) (v : Int)
  | float (reg : Reg) (bits : Nat)
  | bool (reg : Reg) (v : Bool)
  | ref (reg : Reg) (v : Nat)
  | string (reg : Reg) (s : String)
  | atom (reg : Reg) (s : String)
  | list (reg : Reg) (size : Nat)
  | tuple (reg : Reg) (size : Nat)
  | map (reg : Reg)
  | setC (target key value : Reg)
  | moveC (frm key dst : Reg)
  | move (r1 r2 : Reg)
  | store (reg : Reg) (address : Nat)
  | load (address : Nat) (reg : Reg)
  | send (reg reg1 : Reg)
  | recv (reg : Reg)
  | add (r0 r1 r2 : Reg)
  | sub (r0 r1 r2 : Reg)
  | mul (r0 r1 r2 : Reg)
  | div (r0 r1 r2 : Reg)
  | mod (r0 r1 r2 : Reg)
  | jump (address : Nat)
  | jumpIf (address : Nat)
  | eq (r0 r1 : Reg)
  | ne (r0 r1 : Reg)
  | gt (r0 r1 : Reg)
  | lt (r0 r1 : Reg)
  | gte (r0 r1 : Reg)
  | lte (r0 r1 : Reg)
  | push (reg : Reg)
  | pop (reg : Reg)
  | hlt
deriving DecidableEq

/-- The mailbox: its `Vec<Value>` of messages. The mutex only serializes
access; the sequential semantics of `post`/`take` is what is modelled. -/
structure Mailbox where
  messages : List Value

/-- `Mailbox::post`: append at the back of the queue. -/
def Mailbox.post (m : Mailbox) (value : Value) : Mailbox :=
  ⟨m.messages ++ [value]⟩

/-- `Mailbox::take`: remove and return the front of the queue, or signal
empty. -/
def Mailbox.take (m : Mailbox) : Option (Value × Mailbox) :=
  match m.messages with
  | [] => none
  | x :: xs => some (x, ⟨xs⟩)

/-- `Mailbox::new`. -/
def Mailbox.new : Mailbox := ⟨[]⟩

/-- The register file: the `[Value; 11]` array. -/
structure Register where
  registers : List Value

/-- `Register::get`: index the array by the register's discriminant
(out of bounds is a fatal index error, `none`) and return a
`Value::clone` of the slot. -/
def Register.get (self : Register) (reg : Reg) : Option Value :=
  (self.registers.get? reg.toIdx).map Value.clone

/-- `Register::set`: overwrite the slot with a `Value::clone` of the given
value; indexing out of bounds is fatal (`none`). -/
def Register.set (self : Register) (reg : Reg) (value : Value) : Option Register :=
  if reg.toIdx < self.registers.length then
    some ⟨self.registers.set reg.toIdx value.clone⟩
  else
    none

/-- `Register::new`: `R0..R7`, `PC`, `LR` hold `Ref(0)`; `ZF` holds
`Bool(false)`. -/
def Register.new : Register :=
  ⟨[Value.ref 0, Value.ref 0, Value.ref 0, Value.ref 0, Value.ref 0,
    Value.ref 0, Value.ref 0, Value.ref 0, Value.ref 0, Value.bool false,
    Value.ref 0]⟩

/-- The IEEE `f64` operations on 64-bit patterns, kept abstract: the step
function is parametric in them, and no theorem below depends on their
values. -/
structure FloatOps where
  add : Nat → Nat → Nat
  sub : Nat → Nat → Nat
  mul : Nat → Nat → Nat
  div : Nat → Nat → Nat
  mod : Nat → Nat → Nat
  beq : Nat → Nat → Bool
  bne : Nat → Nat → Bool
  bgt : Nat → Nat → Bool
  blt : Nat → Nat → Bool
  bge : Nat → Nat → Bool
  ble : Nat → Nat → Bool

/-- A concrete instantiation of `FloatOps`, used only to evaluate witnesses
on programs that execute no float arithmetic. -/
def trivFops : FloatOps :=
  ⟨fun _ _ => 0, fun _ _ => 0, fun _ _ => 0, fun _ _ => 0, fun _ _ => 0,
   fun _ _ => false, fun _ _ => false, fun _ _ => false, fun _ _ => false,
   fun _ _ => false, fun _ _ => false⟩

/-- Two's-complement wrap of an `i64` result (release-mode Rust semantics;
no property proved here exercises overflow). -/
def wrap64 (x : Int) : Int :=
  (x + 2 ^ 63) % 2 ^ 64 - 2 ^ 63

/-- The `i as usize` cast of an `i64`. -/
def usizeOfI64 (i : Int) : Nat :=
  (i % 2 ^ 64).toNat

/-- The actor state (`struct ActorVm`): register file, value stack, heap,
mailbox, loaded program and the running flag. `heapCap` records the
capacity reserved by `Vec::with_capacity`; `heap` is the vector's actual
contents (its length is what indexing checks). The `sender` callback and
the two mutexes carry no sequential semantics and are not part of the
state. -/
structure ActorVm where
  register : Register
  clockCount : Nat
  cpu : Nat
  stack : List Value
  heap : List Value
  heapCap : Nat
  mailbox : Mailbox
  program : List Inst
  running : Bool

/-- `ActorVm::get_reg` (via `Register::get`). -/
def ActorVm.getReg (vm : ActorVm) (reg : Reg) : Option Value :=
  vm.register.get reg

/-- `ActorVm::set_reg` (via `Register::set`). -/
def ActorVm.setReg (vm : ActorVm) (reg : Reg) (value : Value) : Option ActorVm :=
  (vm.register.set reg value).map fun r => { vm with register := r }

/-- The `self.register.set(Reg::PC, &Value::Ref(pc + 1))` step of `tick`. -/
def ActorVm.incPC (vm : ActorVm) (p : Nat) : Option ActorVm :=
  vm.setReg Reg.PC (Value.ref (p + 1))

/-- The instruction dispatch of `tick` (the `match *inst` body), run on the
state whose `PC` has already been incremented. -/
def ActorVm.exec (fops : FloatOps) (inst : Inst) (vm : ActorVm) : Option ActorVm :=
  match inst with
  | .load address reg => do
      let hv ← vm.heap.get? address
      vm.setReg reg hv.clone
  | .store reg address => do
      let v ← vm.getReg reg
      if address < vm.heap.length then
        some { vm with heap := vm.heap.set address v.clone }
      else
        none
  | .bool reg v => vm.setReg reg (Value.bool v)
  | .int reg v => vm.setReg reg (Value.int v)
  | .float reg v => vm.setReg reg (Value.float v)
  | .ref reg v => vm.setReg reg (Value.ref v)
  | .string reg s => vm.setReg reg (Value.string s)
  | .atom reg s => vm.setReg reg (Value.atom s)
  | .tuple reg size =>
      vm.setReg reg (Value.tuple (List.replicate (size - 1) (Value.ref 0)))
  | .list reg size =>
      vm.setReg reg (Value.list (List.replicate (size - 1) (Value.ref 0)))
  | .map reg => vm.setReg reg (Value.map [])
  | .setC target key value => do
      let t ← vm.getReg target
      let k ← vm.getReg key
      let v ← vm.getReg value
      match t with
      | .list l =>
          match k with
          | .int i =>
              let idx := usizeOfI64 i
              if idx < l.length then
                vm.setReg target (Value.list (l.set idx v.clone))
              else
                none
          | _ => some vm
      | _ => some vm
  | .moveC frm key dst => do
      let f ← vm.getReg frm
      let k ← vm.getReg key
      match f with
      | .list l =>
          match k with
          | .int i => do
              let x ← l.get? (usizeOfI64 i)
              vm.setReg dst x.clone
          | _ => some vm
      | _ => some vm
  | .move r1 r2 => do
      let v ← vm.getReg r1
      vm.setReg r2 v.clone
  | .add r0 r1 r2 => do
      let v0 ← vm.getReg r0
      let v1 ← vm.getReg r1
      match v0, v1 with
      | .int a, .int b => vm.setReg r2 (Value.int (wrap64 (a + b)))
      | .float a, .float b => vm.setReg r2 (Value.float (fops.add a b))
      | _, _ => some vm
  | .sub r0 r1 r2 => do
      let v0 ← vm.getReg r0
      let v1 ← vm.getReg r1
      match v0, v1 with
      | .int a, .int b => vm.setReg r2 (Value.int (wrap64 (a - b)))
      | .float a, .float b => vm.setReg r2 (Value.float (fops.sub a b))
      | _, _ => some vm
  | .mul r0 r1 r2 => do
      let v0 ← vm.getReg r0
      let v1 ← vm.getReg r1
      match v0, v1 with
      | .int a, .int b => vm.setReg r2 (Value.int (wrap64 (a * b)))
      | .float a, .float b => vm.setReg r2 (Value.float (fops.mul a b))
      | _, _ => some vm
  | .div r0 r1 r2 => do
      let v0 ← vm.getReg r0
      let v1 ← vm.getReg r1
      match v0, v1 with
      | .int a, .int b =>
          if b = 0 ∨ (a = -(2 ^ 63) ∧ b = -1) then none
          else vm.setReg r2 (Value.int (a.tdiv b))
      | .float a, .float b => vm.setReg r2 (Value.float (fops.div a b))
      | _, _ => some vm
  | .mod r0 r1 r2 => do
      let v0 ← vm.getReg r0
      let v1 ← vm.getReg r1
      match v0, v1 with
      | .int a, .int b =>
          if b = 0 ∨ (a = -(2 ^ 63) ∧ b = -1) then none
          else vm.setReg r2 (Value.int (a.tmod b))
      | .float a, .float b => vm.setReg r2 (Value.float (fops.mod a b))
      | _, _ => some vm
  | .eq r0 r1 => do
      let v0 ← vm.getReg r0
      let v1 ← vm.getReg r1
      match v0, v1 with
      | .int a, .int b => vm.setReg Reg.ZF (Value.bool (a == b))
      | .float a, .float b => vm.setReg Reg.ZF (Value.bool (fops.beq a b))
      | .string a, .string b => vm.setReg Reg.ZF (Value.bool (a == b))
      | _, _ => some vm
  | .ne r0 r1 => do
      let v0 ← vm.getReg r0
      let v1 ← vm.getReg r1
      match v0, v1 with
      | .int a, .int b => vm.setReg Reg.ZF (Value.bool (a != b))
      | .float a, .float b => vm.setReg Reg.ZF (Value.bool (fops.bne a b))
      | .string a, .string b => vm.setReg Reg.ZF (Value.bool (a != b))
      | _, _ => none
  | .gt r0 r1 => do
      let v0 ← vm.getReg r0
      let v1 ← vm.getReg r1
      match v0, v1 with
      | .int a, .int b => vm.setReg Reg.ZF (Value.bool (decide (a > b)))
      | .float a, .float b => vm.setReg Reg.ZF (Value.bool (fops.bgt a b))
      | _, _ => none
  | .gte r0 r1 => do
      let v0 ← vm.getReg r0
      let v1 ← vm.getReg r1
      match v0, v1 with
      | .int a, .int b => vm.setReg Reg.ZF (Value.bool (decide (a ≥ b)))
      | .float a, .float b => vm.setReg Reg.ZF (Value.bool (fops.bge a b))
      | _, _ => none
  | .lt r0 r1 => do
      let v0 ← vm.getReg r0
      let v1 ← vm.getReg r1
      match v0, v1 with
      | .int a, .int b => vm.setReg Reg.ZF (Value.bool (decide (a < b)))
      | .float a, .float b => vm.setReg Reg.ZF (Value.bool (fops.blt a b))
      | _, _ => none
  | .lte r0 r1 => do
      let v0 ← vm.getReg r0
      let v1 ← vm.getReg r1
      match v0, v1 with
      | .int a, .int b => vm.setReg Reg.ZF (Value.bool (decide (a ≤ b)))
      | .float a, .float b => vm.setReg Reg.ZF (Value.bool (fops.ble a b))
      | _, _ => none
  | .jump address => vm.setReg Reg.PC (Value.ref address)
  | .jumpIf address => do
      let zf ← vm.getReg Reg.ZF
      match zf with
      | .bool true => vm.setReg Reg.PC (Value.ref address)
      | .bool false => some vm
      | _ => none
  | .hlt => some { vm with running := false }
  | .send _ _ => none
  | .recv _ => none
  | .push reg => do
      let v ← vm.getReg reg
      ActorVm.setReg { vm with stack := vm.stack ++ [v.clone] } reg (Value.ref 0)
  | .pop reg => do
      let v ← vm.stack.getLast?
      ActorVm.setReg { vm with stack := vm.stack.dropLast } reg v

/-- `ActorVm::pc`: read the `PC` register and require its tag to be `Ref`
(any other tag is a fatal invariant violation). -/
def ActorVm.pc (vm : ActorVm) : Option Nat :=
  match vm.register.get Reg.PC with
  | some (Value.ref r) => some r
  | some _ => none
  | none => none

/-- `ActorVm::tick`: read `PC` (fatal if its tag is not `Ref`), fetch
`program[pc]` (fatal if out of bounds), write `Ref(pc + 1)` back into `PC`,
then dispatch on the instruction. The `running` flag is never consulted. -/
def ActorVm.tick (fops : FloatOps) (vm : ActorVm) : Option ActorVm := do
  let p ← vm.pc
  let inst ← vm.program.get? p
  let vm1 ← vm.incPC p
  vm1.exec fops inst

/-- `ActorVm::new`: fresh registers, empty stack, a heap created by
`Vec::with_capacity(1000)` — capacity 1000 but **length 0** — an empty
mailbox, the given program, and `running = true`. -/
def ActorVm.new (program : List Inst) (cpu : Nat) : ActorVm :=
  { register := Register.new
    clockCount := cpu
    cpu := cpu
    stack := []
    heap := []
    heapCap := 1000
    mailbox := Mailbox.new
    program := program
    running := true }

/-! ## Helper lemmas about the register file -/

theorem Register.set_eq_some {reg reg' : Register} {r : Reg} {v : Value}
    (h : reg.set r v = some reg') :
    r.toIdx < reg.registers.length ∧
      reg' = ⟨reg.registers.set r.toIdx v.clone⟩ := by
  unfold Register.set at h
  split at h
  · exact ⟨by assumption, (Option.some_inj.mp h).symm⟩
  · exact absurd h (by simp)

theorem Register.get_set_ne {reg reg' : Register} {r q : Reg} {v : Value}
    (h : reg.set r v = some reg') (hne : q.toIdx ≠ r.toIdx) :
    reg'.get q = reg.get q := by
  obtain ⟨-, rfl⟩ := Register.set_eq_some h
  unfold Register.get
  rw [List.get?_set_ne _ _ (fun he => hne he.symm)]

theorem Register.get_set_self {reg reg' : Register} {r : Reg} {v : Value}
    (h : reg.set r v = some reg') :
    reg'.get r = some v.clone.clone := by
  obtain ⟨hlt, rfl⟩ := Register.set_eq_some h
  unfold Register.get
  rw [List.get?_set_eq_of_lt _ hlt]
  rfl

theorem Register.length_set {reg reg' : Register} {r : Reg} {v : Value}
    (h : reg.set r v = some reg') :
    reg'.registers.length = reg.registers.length := by
  obtain ⟨-, rfl⟩ := Register.set_eq_some h
  simp

theorem ActorVm.setReg_eq_some {vm vm' : ActorVm} {r : Reg} {v : Value}
    (h : vm.setReg r v = some vm') :
    ∃ reg', vm.register.set r v = some reg' ∧ vm' = { vm with register := reg' } := by
  unfold ActorVm.setReg at h
  cases hs : vm.register.set r v with
  | none => rw [hs] at h; exact absurd h (by simp)
  | some reg' =>
      rw [hs] at h
      exact ⟨reg', rfl, (Option.some_inj.mp h).symm⟩

theorem ActorVm.setReg_get_ne {vm vm' : ActorVm} {r q : Reg} {v : Value}
    (h : vm.setReg r v = some vm') (hne : q.toIdx ≠ r.toIdx) :
    vm'.register.get q = vm.register.get q := by
  obtain ⟨reg', hs, rfl⟩ := ActorVm.setReg_eq_some h
  exact Register.get_set_ne hs hne

theorem ActorVm.setReg_get_self {vm vm' : ActorVm} {r : Reg} {v : Value}
    (h : vm.setReg r v = some vm') :
    vm'.register.get r = some v.clone.clone := by
  obtain ⟨reg', hs, rfl⟩ := ActorVm.setReg_eq_some h
  exact Register.get_set_self hs

/-- Distinct register names map to distinct array indices. -/
theorem Reg.toIdx_ne_of_ne {q r : Reg} (h : q ≠ r) : q.toIdx ≠ r.toIdx := by
  cases q <;> cases r <;> simp_all [Reg.toIdx]

/-! ## Auxiliary predicates and mailbox iteration -/

/-- The operand-tag pairs for which `Eq`/`Ne` compute a result. -/
def eqSupported : Value → Value → Bool
  | .int _, .int _ => true
  | .float _, .float _ => true
  | .string _, .string _ => true
  | _, _ => false

/-- The operand-tag pairs for which the arithmetic instructions compute a
result. -/
def arithSupported : Value → Value → Bool
  | .int _, .int _ => true
  | .float _, .float _ => true
  | _, _ => false

/-- Instructions that may write the `PC` register: the jumps, and any
instruction whose destination operand names `PC`. -/
def writesPC : Inst → Bool
  | .int r _ => r == Reg.PC
  | .float r _ => r == Reg.PC
  | .bool r _ => r == Reg.PC
  | .ref r _ => r == Reg.PC
  | .string r _ => r == Reg.PC
  | .atom r _ => r == Reg.PC
  | .list r _ => r == Reg.PC
  | .tuple r _ => r == Reg.PC
  | .map r => r == Reg.PC
  | .setC target _ _ => target == Reg.PC
  | .moveC _ _ dst => dst == Reg.PC
  | .move _ r2 => r2 == Reg.PC
  | .store _ _ => false
  | .load _ r => r == Reg.PC
  | .send _ _ => false
  | .recv _ => false
  | .add _ _ r2 => r2 == Reg.PC
  | .sub _ _ r2 => r2 == Reg.PC
  | .mul _ _ r2 => r2 == Reg.PC
  | .div _ _ r2 => r2 == Reg.PC
  | .mod _ _ r2 => r2 == Reg.PC
  | .jump _ => true
  | .jumpIf _ => true
  | .eq _ _ => false
  | .ne _ _ => false
  | .gt _ _ => false
  | .lt _ _ => false
  | .gte _ _ => false
  | .lte _ _ => false
  | .push r => r == Reg.PC
  | .pop r => r == Reg.PC
  | .hlt => false

/-- Post a sequence of values in order (each `post` holds the lock, so a
serialized sequence of posts is a fold). -/
def Mailbox.postAll (m : Mailbox) (vs : List Value) : Mailbox :=
  vs.foldl Mailbox.post m

/-- `n` successive `take` calls, collecting the returned values in order;
stops early if the mailbox signals empty. -/
def Mailbox.takeN : Nat → Mailbox → List Value × Mailbox
  | 0, m => ([], m)
  | n + 1, m =>
    match m.take with
    | none => ([], m)
    | some (v, m') =>
      let r := Mailbox.takeN n m'
      (v :: r.1, r.2)

theorem Mailbox.postAll_messages (vs : List Value) (m : Mailbox) :
    (m.postAll vs).messages = m.messages ++ vs := by
  induction vs generalizing m with
  | nil => simp [Mailbox.postAll]
  | cons v vs ih =>
      show ((m.post v).postAll vs).messages = _
      rw [ih]
      simp [Mailbox.post]

theorem Mailbox.takeN_all (vs : List Value) :
    Mailbox.takeN vs.length ⟨vs⟩ = (vs, ⟨[]⟩) := by
  induction vs with
  | nil => rfl
  | cons v vs ih =>
      show Mailbox.takeN (vs.length + 1) ⟨v :: vs⟩ = _
      unfold Mailbox.takeN
      simp [Mailbox.take, ih]

/-! ## Claim theorems -/

/-- C1: `Value::clone` is a structural copy for nested `List`/`Tuple` and
for scalars, but the `Map` arm of the source discards every entry: cloning
the one-entry map `{0 ↦ 1}` yields the empty map, which is not structurally
equal to the original. -/
theorem clone_map_discards_entries :
    Value.clone (Value.list [Value.tuple [Value.int 3], Value.string "a"])
      = Value.list [Value.tuple [Value.int 3], Value.string "a"] ∧
    Value.clone (Value.map [(Value.int 0, Value.int 1)]) = Value.map [] ∧
    Value.clone (Value.map [(Value.int 0, Value.int 1)])
      ≠ Value.map [(Value.int 0, Value.int 1)] := by
  refine ⟨rfl, rfl, ?_⟩
  intro h
  rw [show Value.clone (Value.map [(Value.int 0, Value.int 1)]) = Value.map [] from rfl] at h
  simp at h

/-- C2: `Inst::List`/`Inst::Tuple` with requested size 10 store a container
of length 9, not 10: the fill loop `for _ in 1..size` pushes only
`size - 1` placeholders. -/
theorem make_container_off_by_one :
    ((ActorVm.new [Inst.list Reg.R2 10] 1000).tick trivFops).map
        (fun v => v.register.get Reg.R2)
      = some (some (Value.list (List.replicate 9 (Value.ref 0)))) ∧
    ((ActorVm.new [Inst.tuple Reg.R2 10] 1000).tick trivFops).map
        (fun v => v.register.get Reg.R2)
      = some (some (Value.tuple (List.replicate 9 (Value.ref 0)))) ∧
    (List.replicate 9 (Value.ref 0)).length = 9 :=
  ⟨rfl, rfl, rfl⟩

/-- C3: with the container register holding `Ref(0)` (not a `List`),
`Inst::SetC` and `Inst::MoveC` complete as silent no-ops — the step
succeeds and the only state change is the PC increment — instead of
signalling a `TypeMismatch` error. -/
theorem setc_movec_mismatch_is_silent_noop :
    (ActorVm.new [Inst.setC Reg.R0 Reg.R1 Reg.R2] 1000).register.get Reg.R0
      = some (Value.ref 0) ∧
    (ActorVm.new [Inst.setC Reg.R0 Reg.R1 Reg.R2] 1000).tick trivFops
      = (ActorVm.new [Inst.setC Reg.R0 Reg.R1 Reg.R2] 1000).incPC 0 ∧
    (ActorVm.new [Inst.moveC Reg.R0 Reg.R1 Reg.R2] 1000).tick trivFops
      = (ActorVm.new [Inst.moveC Reg.R0 Reg.R1 Reg.R2] 1000).incPC 0 :=
  ⟨rfl, rfl, rfl⟩

/-- C5: the heap of a fresh actor is created by `Vec::with_capacity(1000)`,
which reserves capacity 1000 but leaves the length 0, so `Store` at address
0 — well inside the pre-allocated capacity — is a fatal index error, and so
is `Load`. -/
theorem heap_store_load_fatal_within_capacity :
    (ActorVm.new [Inst.store Reg.R0 0] 1000).heapCap = 1000 ∧
    (ActorVm.new [Inst.store Reg.R0 0] 1000).heap.length = 0 ∧
    (ActorVm.new [Inst.store Reg.R0 0] 1000).tick trivFops = none ∧
    (ActorVm.new [Inst.load 0 Reg.R0] 1000).tick trivFops = none :=
  ⟨rfl, rfl, rfl, rfl⟩

/-- C4 counterexample: after executing `Hlt` the actor has `running =
false` and `R0 = Ref(0)`, yet a further `tick` call fetches and executes
the next instruction, leaving `R0 = Int(5)` — not a no-op on the
registers. -/
theorem tick_after_halt_executes :
    ((ActorVm.new [Inst.hlt, Inst.int Reg.R0 5] 1000).tick trivFops).map
        ActorVm.running = some false ∧
    ((ActorVm.new [Inst.hlt, Inst.int Reg.R0 5] 1000).tick trivFops).map
        (fun v => v.register.get Reg.R0) = some (some (Value.ref 0)) ∧
    (((ActorVm.new [Inst.hlt, Inst.int Reg.R0 5] 1000).tick trivFops).bind
        (fun v => v.tick trivFops)).map
        (fun u => u.register.get Reg.R0) = some (some (Value.int 5)) :=
  ⟨rfl, rfl, rfl⟩

/-- C6 counterexample: on the unsupported operand pair `(Int, Bool)`,
`Inst::Ne` is fatal (the source panics with "Invalid comparison") instead
of leaving `ZF` unchanged. -/
theorem ne_mismatch_is_fatal :
    ({ ActorVm.new [Inst.ne Reg.R0 Reg.R1] 1000 with
        register := ⟨[Value.int 1, Value.bool true, Value.ref 0, Value.ref 0,
          Value.ref 0, Value.ref 0, Value.ref 0, Value.ref 0, Value.ref 0,
          Value.bool false, Value.ref 0]⟩ } : ActorVm).register.get Reg.R0
      = some (Value.int 1) ∧
    ({ ActorVm.new [Inst.ne Reg.R0 Reg.R1] 1000 with
        register := ⟨[Value.int 1, Value.bool true, Value.ref 0, Value.ref 0,
          Value.ref 0, Value.ref 0, Value.ref 0, Value.ref 0, Value.ref 0,
          Value.bool false, Value.ref 0]⟩ } : ActorVm).register.get Reg.R1
      = some (Value.bool true) ∧
    ({ ActorVm.new [Inst.ne Reg.R0 Reg.R1] 1000 with
        register := ⟨[Value.int 1, Value.bool true, Value.ref 0, Value.ref 0,
          Value.ref 0, Value.ref 0, Value.ref 0, Value.ref 0, Value.ref 0,
          Value.bool false, Value.ref 0]⟩ } : ActorVm).tick trivFops = none :=
  ⟨rfl, rfl, rfl⟩

/-- C9: the mailbox is FIFO — posting `v1..vn` in order (posts serialized
by the lock) and then taking `n` times returns `v1..vn` in the same order
and empties the mailbox; `take` on an empty mailbox signals empty; `post`
never drops an entry (it appends, preserving all existing messages); and
each `take` removes exactly the oldest entry. -/
theorem mailbox_fifo :
    (∀ vs : List Value,
        Mailbox.takeN vs.length (Mailbox.postAll Mailbox.new vs)
          = (vs, Mailbox.new)) ∧
    Mailbox.new.take = none ∧
    (∀ (m : Mailbox) (v : Value), (m.post v).messages = m.messages ++ [v]) ∧
    (∀ (x : Value) (xs : List Value),
        Mailbox.take ⟨x :: xs⟩ = some (x, ⟨xs⟩)) := by
  refine ⟨fun vs => ?_, rfl, fun m v => rfl, fun x xs => rfl⟩
  have h : (Mailbox.postAll Mailbox.new vs) = ⟨vs⟩ := by
    have hmsg := Mailbox.postAll_messages vs Mailbox.new
    cases hm : Mailbox.postAll Mailbox.new vs with
    | mk ms =>
        rw [hm] at hmsg
        simp [Mailbox.new] at hmsg
        rw [hmsg]
  rw [h, Mailbox.takeN_all]
  rfl

/-- C10: `Reg::RegCount` has discriminant 11 while the register array has
exactly 11 slots (indices 0..10): every named register reads and writes a
valid slot, but `get`/`set` at `RegCount` index past the end of the array,
so the out-of-bounds branch is reachable through the public interface. -/
theorem regcount_indexes_past_end :
    Reg.toIdx Reg.RegCount = 11 ∧
    Register.new.registers.length = 11 ∧
    (∀ r : Reg, r ≠ Reg.RegCount → (Register.new.get r).isSome = true) ∧
    Register.new.get Reg.RegCount = none ∧
    (∀ v : Value, Register.new.set Reg.RegCount v = none) ∧
    (∀ (r : Reg) (v : Value), r ≠ Reg.RegCount →
        (Register.new.set r v).isSome = true) := by
  refine ⟨rfl, rfl, fun r hr => ?_, rfl, fun v => rfl, fun r v hr => ?_⟩
  · cases r <;> first | rfl | exact absurd rfl hr
  · cases r <;> first
      | exact absurd rfl hr
      | simp [Register.set, Register.new, Reg.toIdx]

/-- C10 witness: concrete in-bounds and out-of-bounds accesses. -/
theorem regcount_indexes_past_end_witness :
    (Register.new.get Reg.R3).isSome = true ∧
    Register.new.get Reg.RegCount = none ∧
    (Register.new.set Reg.LR (Value.int 7)).isSome = true :=
  ⟨regcount_indexes_past_end.2.2.1 Reg.R3 (by decide),
   regcount_indexes_past_end.2.2.2.1,
   regcount_indexes_past_end.2.2.2.2.2 Reg.LR (Value.int 7) (by decide)⟩

/-- C4 amended: `tick` performs no `Halted` check — even with `running =
false`, it still fetches `program[PC]`, increments `PC`, and executes the
fetched instruction exactly as in the running case; only the external
driver's check of the `running` flag prevents further execution. -/
theorem tick_has_no_halted_guard (fops : FloatOps) (vm : ActorVm) (p : Nat)
    (inst : Inst) (hrun : vm.running = false) (hpc : vm.pc = some p)
    (hfetch : vm.program.get? p = some inst) :
    vm.tick fops = (vm.incPC p).bind (ActorVm.exec fops inst) := by
  unfold ActorVm.tick
  rw [hpc]
  show (vm.program.get? p).bind
      (fun inst => (vm.incPC p).bind fun vm1 => ActorVm.exec fops inst vm1) = _
  rw [hfetch]
  rfl

/-- C4 amended witness: the concrete halted actor obtained by executing
`Hlt` still fetches and executes `Int(R0, 5)` on the next `tick`. -/
theorem tick_has_no_halted_guard_witness :
    ({ ActorVm.new [Inst.hlt, Inst.int Reg.R0 5] 1000 with
        register := ⟨[Value.ref 0, Value.ref 0, Value.ref 0, Value.ref 0,
          Value.ref 0, Value.ref 0, Value.ref 0, Value.ref 0, Value.ref 1,
          Value.bool false, Value.ref 0]⟩,
        running := false } : ActorVm).tick trivFops
      = (({ ActorVm.new [Inst.hlt, Inst.int Reg.R0 5] 1000 with
            register := ⟨[Value.ref 0, Value.ref 0, Value.ref 0, Value.ref 0,
              Value.ref 0, Value.ref 0, Value.ref 0, Value.ref 0, Value.ref 1,
              Value.bool false, Value.ref 0]⟩,
            running := false } : ActorVm).incPC 1).bind
          (ActorVm.exec trivFops (Inst.int Reg.R0 5)) :=
  tick_has_no_halted_guard trivFops _ 1 (Inst.int Reg.R0 5) rfl rfl rfl

/-- C6 amended: on an operand pair that is not `(Int,Int)`, `(Float,Float)`
or `(String,String)`, `Inst::Eq` completes with `ZF` (and everything except
`PC`) unchanged and raises no error, but `Inst::Ne` — unlike `Eq` — is
fatal (the source panics). -/
theorem eq_tolerant_ne_fatal (fops : FloatOps) (vm : ActorVm) (p : Nat)
    (r0 r1 : Reg) (reg1 : Register) (v0 v1 : Value)
    (hpc : vm.pc = some p)
    (hset : vm.register.set Reg.PC (Value.ref (p + 1)) = some reg1)
    (hv0 : reg1.get r0 = some v0) (hv1 : reg1.get r1 = some v1)
    (hmm : eqSupported v0 v1 = false) :
    (vm.program.get? p = some (Inst.eq r0 r1) →
        vm.tick fops = some { vm with register := reg1 } ∧
        reg1.get Reg.ZF = vm.register.get Reg.ZF) ∧
    (vm.program.get? p = some (Inst.ne r0 r1) → vm.tick fops = none) := by
  have hzf : reg1.get Reg.ZF = vm.register.get Reg.ZF :=
    Register.get_set_ne hset (by decide)
  have hinc : vm.incPC p = some { vm with register := reg1 } := by
    unfold ActorVm.incPC ActorVm.setReg
    rw [hset]
    rfl
  have hdec : ∀ inst, vm.program.get? p = some inst →
      vm.tick fops = ActorVm.exec fops inst { vm with register := reg1 } := by
    intro inst hfetch
    unfold ActorVm.tick
    rw [hpc]
    show (vm.program.get? p).bind
        (fun i => (vm.incPC p).bind fun vm1 => ActorVm.exec fops i vm1) = _
    rw [hfetch, hinc]
    rfl
  constructor
  · intro hfetch
    refine ⟨?_, hzf⟩
    rw [hdec _ hfetch]
    simp only [ActorVm.exec, ActorVm.getReg, Option.bind_eq_bind]
    rw [show ({ vm with register := reg1 } : ActorVm).register.get r0
          = some v0 from hv0,
        show ({ vm with register := reg1 } : ActorVm).register.get r1
          = some v1 from hv1]
    simp only [Option.some_bind]
    cases v0 <;> cases v1 <;> first
      | rfl
      | simp [eqSupported] at hmm
  · intro hfetch
    rw [hdec _ hfetch]
    simp only [ActorVm.exec, ActorVm.getReg, Option.bind_eq_bind]
    rw [show ({ vm with register := reg1 } : ActorVm).register.get r0
          = some v0 from hv0,
        show ({ vm with register := reg1 } : ActorVm).register.get r1
          = some v1 from hv1]
    simp only [Option.some_bind]
    cases v0 <;> cases v1 <;> first
      | rfl
      | simp [eqSupported] at hmm

/-- C6 amended witness: `Eq(R0, R1)` with both operands holding `Ref(0)`
completes with only the PC increment. -/
theorem eq_tolerant_ne_fatal_witness :
    (ActorVm.new [Inst.eq Reg.R0 Reg.R1] 1000).tick trivFops
      = some { ActorVm.new [Inst.eq Reg.R0 Reg.R1] 1000 with
          register := ⟨[Value.ref 0, Value.ref 0, Value.ref 0, Value.ref 0,
            Value.ref 0, Value.ref 0, Value.ref 0, Value.ref 0, Value.ref 1,
            Value.bool false, Value.ref 0]⟩ } :=
  ((eq_tolerant_ne_fatal trivFops (ActorVm.new [Inst.eq Reg.R0 Reg.R1] 1000) 0
      Reg.R0 Reg.R1
      ⟨[Value.ref 0, Value.ref 0, Value.ref 0, Value.ref 0, Value.ref 0,
        Value.ref 0, Value.ref 0, Value.ref 0, Value.ref 1, Value.bool false,
        Value.ref 0]⟩
      (Value.ref 0) (Value.ref 0) rfl rfl rfl rfl rfl).1 rfl).1

/-- C8: an arithmetic instruction (`Add`/`Sub`/`Mul`/`Div`/`Mod`) whose two
source operands are not both `Int` and not both `Float` completes as a
silent no-op: the step succeeds, the resulting state differs from the
original only in the already-incremented `PC`, and every register other
than `PC` (in particular the destination) is unchanged. -/
theorem arith_mismatch_silent_noop (fops : FloatOps) (vm : ActorVm) (p : Nat)
    (inst : Inst) (r0 r1 r2 : Reg) (reg1 : Register) (v0 v1 : Value)
    (hpc : vm.pc = some p) (hfetch : vm.program.get? p = some inst)
    (hinst : inst = Inst.add r0 r1 r2 ∨ inst = Inst.sub r0 r1 r2 ∨
      inst = Inst.mul r0 r1 r2 ∨ inst = Inst.div r0 r1 r2 ∨
      inst = Inst.mod r0 r1 r2)
    (hset : vm.register.set Reg.PC (Value.ref (p + 1)) = some reg1)
    (hv0 : reg1.get r0 = some v0) (hv1 : reg1.get r1 = some v1)
    (hmm : arithSupported v0 v1 = false) :
    vm.tick fops = some { vm with register := reg1 } ∧
    (∀ q : Reg, q ≠ Reg.PC → reg1.get q = vm.register.get q) := by
  have hinc : vm.incPC p = some { vm with register := reg1 } := by
    unfold ActorVm.incPC ActorVm.setReg
    rw [hset]
    rfl
  have hframe : ∀ q : Reg, q ≠ Reg.PC → reg1.get q = vm.register.get q :=
    fun q hq => Register.get_set_ne hset (Reg.toIdx_ne_of_ne hq)
  refine ⟨?_, hframe⟩
  have hdec : vm.tick fops
      = ActorVm.exec fops inst { vm with register := reg1 } := by
    unfold ActorVm.tick
    rw [hpc]
    show (vm.program.get? p).bind
        (fun i => (vm.incPC p).bind fun vm1 => ActorVm.exec fops i vm1) = _
    rw [hfetch, hinc]
    rfl
  rw [hdec]
  rcases hinst with rfl | rfl | rfl | rfl | rfl
  all_goals
    simp only [ActorVm.exec, ActorVm.getReg, Option.bind_eq_bind]
  all_goals
    rw [show ({ vm with register := reg1 } : ActorVm).register.get r0
          = some v0 from hv0,
        show ({ vm with register := reg1 } : ActorVm).register.get r1
          = some v1 from hv1]
  all_goals
    simp only [Option.some_bind]
  all_goals
    cases v0 <;> cases v1 <;> first
      | rfl
      | simp [arithSupported] at hmm

/-- C8 witness: `Add(R0, R1, R2)` with both sources holding `Ref(0)`
completes with only the PC increment. -/
theorem arith_mismatch_silent_noop_witness :
    (ActorVm.new [Inst.add Reg.R0 Reg.R1 Reg.R2] 1000).tick trivFops
      = some { ActorVm.new [Inst.add Reg.R0 Reg.R1 Reg.R2] 1000 with
          register := ⟨[Value.ref 0, Value.ref 0, Value.ref 0, Value.ref 0,
            Value.ref 0, Value.ref 0, Value.ref 0, Value.ref 0, Value.ref 1,
            Value.bool false, Value.ref 0]⟩ } :=
  (arith_mismatch_silent_noop trivFops
      (ActorVm.new [Inst.add Reg.R0 Reg.R1 Reg.R2] 1000) 0
      (Inst.add Reg.R0 Reg.R1 Reg.R2) Reg.R0 Reg.R1 Reg.R2
      ⟨[Value.ref 0, Value.ref 0, Value.ref 0, Value.ref 0, Value.ref 0,
        Value.ref 0, Value.ref 0, Value.ref 0, Value.ref 1, Value.bool false,
        Value.ref 0]⟩
      (Value.ref 0) (Value.ref 0) rfl rfl (Or.inl rfl) rfl rfl rfl rfl).1

theorem ActorVm.setReg_get_PC {vm vm' : ActorVm} {r : Reg} {v : Value}
    (h : vm.setReg r v = some vm') (hr : r ≠ Reg.PC) :
    vm'.register.get Reg.PC = vm.register.get Reg.PC :=
  ActorVm.setReg_get_ne h (Reg.toIdx_ne_of_ne (Ne.symm hr))

/-- A successful dispatch of an instruction that does not name `PC` as a
destination (and is not a jump) leaves the `PC` register unchanged. -/
theorem exec_preserves_PC (fops : FloatOps) (inst : Inst) {vm1 vm' : ActorVm}
    (hw : writesPC inst = false) (h : ActorVm.exec fops inst vm1 = some vm') :
    vm'.register.get Reg.PC = vm1.register.get Reg.PC := by
  have hzfne : Reg.PC.toIdx ≠ Reg.ZF.toIdx := by decide
  cases inst
  all_goals try
    (simp only [ActorVm.exec] at h
     simp only [writesPC, beq_eq_false_iff_ne] at hw
     exact ActorVm.setReg_get_PC h hw)
  case jump address => simp [writesPC] at hw
  case jumpIf address => simp [writesPC] at hw
  case send reg reg1 => simp [ActorVm.exec] at h
  case recv reg => simp [ActorVm.exec] at h
  case hlt =>
    simp only [ActorVm.exec, Option.some_inj] at h
    subst h
    rfl
  case move r1 r2 =>
    simp only [ActorVm.exec, Option.bind_eq_bind, Option.bind_eq_some] at h
    obtain ⟨v, -, hs⟩ := h
    simp only [writesPC, beq_eq_false_iff_ne] at hw
    exact ActorVm.setReg_get_PC hs hw
  case load address reg =>
    simp only [ActorVm.exec, Option.bind_eq_bind, Option.bind_eq_some] at h
    obtain ⟨v, -, hs⟩ := h
    simp only [writesPC, beq_eq_false_iff_ne] at hw
    exact ActorVm.setReg_get_PC hs hw
  case store reg address =>
    simp only [ActorVm.exec, Option.bind_eq_bind, Option.bind_eq_some] at h
    obtain ⟨v, -, hs⟩ := h
    split at hs
    · obtain rfl := Option.some_inj.mp hs
      rfl
    · exact Option.noConfusion hs
  case push reg =>
    simp only [ActorVm.exec, Option.bind_eq_bind, Option.bind_eq_some] at h
    obtain ⟨v, -, hs⟩ := h
    simp only [writesPC, beq_eq_false_iff_ne] at hw
    have hp := ActorVm.setReg_get_PC hs hw
    exact hp
  case pop reg =>
    simp only [ActorVm.exec, Option.bind_eq_bind, Option.bind_eq_some] at h
    obtain ⟨v, -, hs⟩ := h
    simp only [writesPC, beq_eq_false_iff_ne] at hw
    have hp := ActorVm.setReg_get_PC hs hw
    exact hp
  case setC target key value =>
    simp only [ActorVm.exec, Option.bind_eq_bind, Option.bind_eq_some] at h
    obtain ⟨t, -, k, -, v, -, hs⟩ := h
    simp only [writesPC, beq_eq_false_iff_ne] at hw
    split at hs
    · split at hs
      · split at hs
        · exact ActorVm.setReg_get_PC hs hw
        · exact Option.noConfusion hs
      · obtain rfl := Option.some_inj.mp hs
        rfl
    · obtain rfl := Option.some_inj.mp hs
      rfl
  case moveC frm key dst =>
    simp only [ActorVm.exec, Option.bind_eq_bind, Option.bind_eq_some] at h
    obtain ⟨f, -, k, -, hs⟩ := h
    simp only [writesPC, beq_eq_false_iff_ne] at hw
    split at hs
    · split at hs
      · simp only [Option.bind_eq_bind, Option.bind_eq_some] at hs
        obtain ⟨x, -, hs⟩ := hs
        exact ActorVm.setReg_get_PC hs hw
      · obtain rfl := Option.some_inj.mp hs
        rfl
    · obtain rfl := Option.some_inj.mp hs
      rfl
  case add r0 r1 r2 =>
    simp only [ActorVm.exec, Option.bind_eq_bind, Option.bind_eq_some] at h
    obtain ⟨v0, -, v1, -, hs⟩ := h
    simp only [writesPC, beq_eq_false_iff_ne] at hw
    split at hs
    · exact ActorVm.setReg_get_PC hs hw
    · exact ActorVm.setReg_get_PC hs hw
    · obtain rfl := Option.some_inj.mp hs
      rfl
  case sub r0 r1 r2 =>
    simp only [ActorVm.exec, Option.bind_eq_bind, Option.bind_eq_some] at h
    obtain ⟨v0, -, v1, -, hs⟩ := h
    simp only [writesPC, beq_eq_false_iff_ne] at hw
    split at hs
    · exact ActorVm.setReg_get_PC hs hw
    · exact ActorVm.setReg_get_PC hs hw
    · obtain rfl := Option.some_inj.mp hs
      rfl
  case mul r0 r1 r2 =>
    simp only [ActorVm.exec, Option.bind_eq_bind, Option.bind_eq_some] at h
    obtain ⟨v0, -, v1, -, hs⟩ := h
    simp only [writesPC, beq_eq_false_iff_ne] at hw
    split at hs
    · exact ActorVm.setReg_get_PC hs hw
    · exact ActorVm.setReg_get_PC hs hw
    · obtain rfl := Option.some_inj.mp hs
      rfl
  case div r0 r1 r2 =>
    simp only [ActorVm.exec, Option.bind_eq_bind, Option.bind_eq_some] at h
    obtain ⟨v0, -, v1, -, hs⟩ := h
    simp only [writesPC, beq_eq_false_iff_ne] at hw
    split at hs
    · split at hs
      · exact Option.noConfusion hs
      · exact ActorVm.setReg_get_PC hs hw
    · exact ActorVm.setReg_get_PC hs hw
    · obtain rfl := Option.some_inj.mp hs
      rfl
  case mod r0 r1 r2 =>
    simp only [ActorVm.exec, Option.bind_eq_bind, Option.bind_eq_some] at h
    obtain ⟨v0, -, v1, -, hs⟩ := h
    simp only [writesPC, beq_eq_false_iff_ne] at hw
    split at hs
    · split at hs
      · exact Option.noConfusion hs
      · exact ActorVm.setReg_get_PC hs hw
    · exact ActorVm.setReg_get_PC hs hw
    · obtain rfl := Option.some_inj.mp hs
      rfl
  case eq r0 r1 =>
    simp only [ActorVm.exec, Option.bind_eq_bind, Option.bind_eq_some] at h
    obtain ⟨v0, -, v1, -, hs⟩ := h
    split at hs
    · exact ActorVm.setReg_get_ne hs hzfne
    · exact ActorVm.setReg_get_ne hs hzfne
    · exact ActorVm.setReg_get_ne hs hzfne
    · obtain rfl := Option.some_inj.mp hs
      rfl
  case ne r0 r1 =>
    simp only [ActorVm.exec, Option.bind_eq_bind, Option.bind_eq_some] at h
    obtain ⟨v0, -, v1, -, hs⟩ := h
    split at hs
    · exact ActorVm.setReg_get_ne hs hzfne
    · exact ActorVm.setReg_get_ne hs hzfne
    · exact ActorVm.setReg_get_ne hs hzfne
    · exact Option.noConfusion hs
  case gt r0 r1 =>
    simp only [ActorVm.exec, Option.bind_eq_bind, Option.bind_eq_some] at h
    obtain ⟨v0, -, v1, -, hs⟩ := h
    split at hs
    · exact ActorVm.setReg_get_ne hs hzfne
    · exact ActorVm.setReg_get_ne hs hzfne
    · exact Option.noConfusion hs
  case lt r0 r1 =>
    simp only [ActorVm.exec, Option.bind_eq_bind, Option.bind_eq_some] at h
    obtain ⟨v0, -, v1, -, hs⟩ := h
    split at hs
    · exact ActorVm.setReg_get_ne hs hzfne
    · exact ActorVm.setReg_get_ne hs hzfne
    · exact Option.noConfusion hs
  case gte r0 r1 =>
    simp only [ActorVm.exec, Option.bind_eq_bind, Option.bind_eq_some] at h
    obtain ⟨v0, -, v1, -, hs⟩ := h
    split at hs
    · exact ActorVm.setReg_get_ne hs hzfne
    · exact ActorVm.setReg_get_ne hs hzfne
    · exact Option.noConfusion hs
  case lte r0 r1 =>
    simp only [ActorVm.exec, Option.bind_eq_bind, Option.bind_eq_some] at h
    obtain ⟨v0, -, v1, -, hs⟩ := h
    split at hs
    · exact ActorVm.setReg_get_ne hs hzfne
    · exact ActorVm.setReg_get_ne hs hzfne
    · exact Option.noConfusion hs

/-- C7: with `PC` holding `Ref(p)` in program bounds, `tick` fetches
`program[p]` and overwrites `PC` with `Ref(p+1)` before dispatching the
instruction's effects; consequently `Jump(a)` leaves `PC = Ref(a)`,
`JumpIfTrue(a)` with `ZF = Bool(true)` leaves `PC = Ref(a)`, and any
successful non-jump instruction that does not name `PC` as a destination
leaves `PC = Ref(p+1)`. -/
theorem tick_fetch_increment_execute (fops : FloatOps) (vm : ActorVm) (p : Nat)
    (hpc : vm.pc = some p) (hlen : vm.register.registers.length = 11) :
    (∀ inst, vm.program.get? p = some inst →
        vm.tick fops = (vm.incPC p).bind (ActorVm.exec fops inst)) ∧
    (∀ a, vm.program.get? p = some (Inst.jump a) → ∀ vm',
        vm.tick fops = some vm' →
        vm'.register.get Reg.PC = some (Value.ref a)) ∧
    (∀ a, vm.program.get? p = some (Inst.jumpIf a) →
        vm.register.get Reg.ZF = some (Value.bool true) → ∀ vm',
        vm.tick fops = some vm' →
        vm'.register.get Reg.PC = some (Value.ref a)) ∧
    (∀ inst, vm.program.get? p = some inst → writesPC inst = false → ∀ vm',
        vm.tick fops = some vm' →
        vm'.register.get Reg.PC = some (Value.ref (p + 1))) := by
  have h8 : Reg.PC.toIdx < vm.register.registers.length := by
    rw [hlen]
    decide
  obtain ⟨reg1, hset⟩ : ∃ reg1,
      vm.register.set Reg.PC (Value.ref (p + 1)) = some reg1 := by
    unfold Register.set
    rw [if_pos h8]
    exact ⟨_, rfl⟩
  have hinc : vm.incPC p = some { vm with register := reg1 } := by
    unfold ActorVm.incPC ActorVm.setReg
    rw [hset]
    rfl
  have hdec : ∀ inst, vm.program.get? p = some inst →
      vm.tick fops = ActorVm.exec fops inst { vm with register := reg1 } := by
    intro inst hfetch
    unfold ActorVm.tick
    rw [hpc]
    show (vm.program.get? p).bind
        (fun i => (vm.incPC p).bind fun vm1 => ActorVm.exec fops i vm1) = _
    rw [hfetch, hinc]
    rfl
  have hpc1 : reg1.get Reg.PC = some (Value.ref (p + 1)) :=
    Register.get_set_self hset
  refine ⟨?_, ?_, ?_, ?_⟩
  · intro inst hfetch
    rw [hdec inst hfetch, hinc]
    rfl
  · intro a hfetch vm' htick
    rw [hdec _ hfetch] at htick
    simp only [ActorVm.exec] at htick
    exact ActorVm.setReg_get_self htick
  · intro a hfetch hzf vm' htick
    rw [hdec _ hfetch] at htick
    have hzf1 : ({ vm with register := reg1 } : ActorVm).getReg Reg.ZF
        = some (Value.bool true) := by
      show reg1.get Reg.ZF = _
      rw [Register.get_set_ne hset (by decide)]
      exact hzf
    simp only [ActorVm.exec, hzf1, Option.bind_eq_bind, Option.some_bind]
      at htick
    exact ActorVm.setReg_get_self htick
  · intro inst hfetch hw vm' htick
    rw [hdec _ hfetch] at htick
    have hPC := exec_preserves_PC fops inst hw htick
    rw [hPC]
    exact hpc1

/-- C7 witness: on a fresh actor whose single instruction is `Jump(3)`,
`tick` decomposes into the `PC` increment followed by the dispatch of the
fetched instruction. -/
theorem tick_fetch_increment_execute_witness :
    (ActorVm.new [Inst.jump 3] 1000).tick trivFops
      = ((ActorVm.new [Inst.jump 3] 1000).incPC 0).bind
          (ActorVm.exec trivFops (Inst.jump 3)) :=
  (tick_fetch_increment_execute trivFops (ActorVm.new [Inst.jump 3] 1000) 0
      rfl rfl).1 (Inst.jump 3) rfl
